import Mathlib

/-!
# Verification of the cultivation game's progression, ledger and effect core

Shallow embedding of the repository's core subsystems:

* `src/spirit_stones.py` — the spirit-stone currency ledger
  (`SpiritStoneManager.add_stones`, `can_afford_cost`, `pay_cost`,
  `_pay_with_conversion`, `get_total_value_in_low_grade`) and the
  cure catalog (`EffectResolutionSystem`);
* `src/realm_stage_system.py` — the realm table, stage experience
  requirements, and breakthrough success-rate computation;
* `src/player.py` — `EnhancedPlayer.add_experience`,
  `_apply_ongoing_effects`, `_cleanup_expired_effects`, `cure_effect`;
* `src/cultivation_encounters.py` — `SmartEncounterManager._calculate_encounter_chance`.

Python `int` is embedded as `Int`, Python `float` arithmetic as exact `ℚ`
arithmetic (all the constants involved are decimal literals, which `ℚ`
represents exactly), and Python's `int(x)` conversion as truncation toward
zero (`pyInt`).  Python dicts keyed by the five stone grades are embedded as
a record with one `Int` field per grade; a cost dict's missing keys are
represented by a `0` entry, which is behaviourally identical whenever the
inventory counts are non-negative (the documented ledger invariant).
-/

namespace CultivationGame

/-! ## Spirit stone grades and the ledger (src/spirit_stones.py) -/

/-- The five stone denominations (`SpiritStoneGrade`). -/
inductive SpiritStoneGrade where
  | low | mid | high | peak | divine
deriving DecidableEq, Repr

/-- `EXCHANGE_RATES`: value of one stone of each grade in low-grade units. -/
def exchangeRate : SpiritStoneGrade → Int
  | .low => 1
  | .mid => 10
  | .high => 100
  | .peak => 1000
  | .divine => 10000

/-- A dict from grade to count (used both for the inventory and for cost
maps; a cost dict's absent keys are `0`). -/
structure StoneMap where
  low : Int
  mid : Int
  high : Int
  peak : Int
  divine : Int
deriving DecidableEq, Repr

/-- Look up one grade's count. -/
def StoneMap.get (m : StoneMap) : SpiritStoneGrade → Int
  | .low => m.low
  | .mid => m.mid
  | .high => m.high
  | .peak => m.peak
  | .divine => m.divine

/-- All five counts are non-negative (the documented ledger invariant). -/
def StoneMap.Nonneg (m : StoneMap) : Prop :=
  0 ≤ m.low ∧ 0 ≤ m.mid ∧ 0 ≤ m.high ∧ 0 ≤ m.peak ∧ 0 ≤ m.divine

instance (m : StoneMap) : Decidable m.Nonneg := by
  unfold StoneMap.Nonneg; infer_instance

/-- The inventory created by `SpiritStoneManager.__init__` (starting stones). -/
def initialInventory : StoneMap := ⟨50, 15, 3, 0, 0⟩

/-- `SpiritStoneManager.add_stones`: `self.inventory[grade] += amount`,
unconditionally. -/
def addStones (inv : StoneMap) (grade : SpiritStoneGrade) (amount : Int) : StoneMap :=
  match grade with
  | .low => { inv with low := inv.low + amount }
  | .mid => { inv with mid := inv.mid + amount }
  | .high => { inv with high := inv.high + amount }
  | .peak => { inv with peak := inv.peak + amount }
  | .divine => { inv with divine := inv.divine + amount }

/-- `SpiritStoneManager.get_total_value_in_low_grade`: Σ count × rate. -/
def getTotalValueInLowGrade (m : StoneMap) : Int :=
  m.low * 1 + m.mid * 10 + m.high * 100 + m.peak * 1000 + m.divine * 10000

/-- The per-grade sufficiency test from the loop in `can_afford_cost` /
the exact-payment loop in `pay_cost`: every grade's inventory covers the
cost entry for that grade. -/
def exactSufficient (inv cost : StoneMap) : Bool :=
  decide (cost.low ≤ inv.low) && decide (cost.mid ≤ inv.mid) &&
  decide (cost.high ≤ inv.high) && decide (cost.peak ≤ inv.peak) &&
  decide (cost.divine ≤ inv.divine)

/-- `SpiritStoneManager._can_afford_with_conversion`: compare the cost's
total low-grade value with the inventory's total value. -/
def canAffordWithConversion (inv cost : StoneMap) : Bool :=
  decide (getTotalValueInLowGrade cost ≤ getTotalValueInLowGrade inv)

/-- `SpiritStoneManager.can_afford_cost`: returns `True` if every grade is
exactly sufficient, otherwise falls back to the total-value check. -/
def canAffordCost (inv cost : StoneMap) : Bool :=
  if exactSufficient inv cost then true else canAffordWithConversion inv cost

/-- The committed `temp_inventory` of the exact-payment branch of
`pay_cost`: subtract each cost entry per grade. -/
def payExact (inv cost : StoneMap) : StoneMap :=
  ⟨inv.low - cost.low, inv.mid - cost.mid, inv.high - cost.high,
   inv.peak - cost.peak, inv.divine - cost.divine⟩

/-- One iteration of the conversion loop in `_pay_with_conversion` at a
single grade: `avail` stones of value `v` against `remaining` cost.  The
loop breaks once `remaining_cost <= 0` and skips grades with no stones;
otherwise it spends `min(avail, ceil(remaining / v))` stones (Python's
`(remaining + v - 1) // v` floor division is `Int.fdiv`). -/
def convStep (avail v remaining : Int) : Int × Int :=
  if remaining ≤ 0 then (avail, remaining)
  else if 0 < avail then
    (avail - min avail ((remaining + v - 1).fdiv v),
     remaining - min avail ((remaining + v - 1).fdiv v) * v)
  else (avail, remaining)

/-- `SpiritStoneManager._pay_with_conversion`: walk the grades from highest
to lowest, spending stones against the cost's total low-grade value; the
result is the updated inventory and whether the remaining cost reached 0. -/
def payWithConversion (inv cost : StoneMap) : StoneMap × Bool :=
  let total := getTotalValueInLowGrade cost
  let sDiv := convStep inv.divine 10000 total
  let sPeak := convStep inv.peak 1000 sDiv.2
  let sHigh := convStep inv.high 100 sPeak.2
  let sMid := convStep inv.mid 10 sHigh.2
  let sLow := convStep inv.low 1 sMid.2
  (⟨sLow.1, sMid.1, sHigh.1, sPeak.1, sDiv.1⟩, decide (sLow.2 ≤ 0))

/-- `SpiritStoneManager.pay_cost`: refuse if `can_afford_cost` fails; pay
exactly per grade when possible; otherwise pay through conversion.  Returns
the resulting inventory and the success flag. -/
def payCost (inv cost : StoneMap) : StoneMap × Bool :=
  if canAffordCost inv cost = false then (inv, false)
  else if exactSufficient inv cost then (payExact inv cost, true)
  else payWithConversion inv cost

/-! ### Ledger lemmas -/

lemma convStep_of_nonpos (avail v remaining : Int) (h : remaining ≤ 0) :
    convStep avail v remaining = (avail, remaining) := by
  simp [convStep, h]

lemma convStep_fst_nonneg (avail v remaining : Int) (h : 0 ≤ avail) :
    0 ≤ (convStep avail v remaining).1 := by
  unfold convStep
  split_ifs with h1 h2
  · exact h
  · exact sub_nonneg.mpr (min_le_left _ _)
  · exact h

/-- Key step estimate: after one conversion step the remaining cost is
either fully covered, or has dropped by at least the full value of that
grade's stock. -/
lemma convStep_snd_le (avail v remaining : Int) (hv : 1 ≤ v) :
    (convStep avail v remaining).2 ≤ 0 ∨
    (convStep avail v remaining).2 ≤ remaining - avail * v := by
  unfold convStep
  split_ifs with h1 h2
  · exact Or.inl h1
  · rcases le_or_lt ((remaining + v - 1).fdiv v) avail with hca | hca
    · left
      have hfm := Int.fdiv_add_fmod (remaining + v - 1) v
      have hlt : (remaining + v - 1).fmod v < v :=
        Int.fmod_lt_of_pos _ (by omega)
      have hge : 0 ≤ (remaining + v - 1).fmod v :=
        Int.fmod_nonneg' _ (by omega)
      have hmin : min avail ((remaining + v - 1).fdiv v) =
          (remaining + v - 1).fdiv v := min_eq_right hca
      rw [hmin]
      dsimp only
      -- `v * fdiv ≥ remaining`, so spending `fdiv` stones covers the rest
      have : remaining ≤ ((remaining + v - 1).fdiv v) * v := by nlinarith
      linarith
    · right
      have hmin : min avail ((remaining + v - 1).fdiv v) = avail :=
        min_eq_left (le_of_lt hca)
      rw [hmin]
  · right
    dsimp only
    have ha : avail ≤ 0 := le_of_not_lt h2
    nlinarith

/-- If the cost's total value is covered by the inventory's total value,
the greedy high-to-low conversion always drives the remaining cost to 0. -/
lemma payWithConversion_covers (inv cost : StoneMap)
    (h : getTotalValueInLowGrade cost ≤ getTotalValueInLowGrade inv) :
    (payWithConversion inv cost).2 = true := by
  unfold payWithConversion
  simp only [decide_eq_true_eq]
  set T := getTotalValueInLowGrade cost with hT
  have hInv : T ≤ inv.low * 1 + inv.mid * 10 + inv.high * 100 +
      inv.peak * 1000 + inv.divine * 10000 := h
  rcases convStep_snd_le inv.divine 10000 T (by omega) with h1 | h1
  · rw [convStep_of_nonpos _ _ _ h1]
    rw [convStep_of_nonpos _ _ _ h1]
    rw [convStep_of_nonpos _ _ _ h1]
    rw [convStep_of_nonpos _ _ _ h1]
    exact h1
  · rcases convStep_snd_le inv.peak 1000 (convStep inv.divine 10000 T).2
        (by omega) with h2 | h2
    · rw [convStep_of_nonpos _ _ _ h2]
      rw [convStep_of_nonpos _ _ _ h2]
      rw [convStep_of_nonpos _ _ _ h2]
      exact h2
    · rcases convStep_snd_le inv.high 100
          (convStep inv.peak 1000 (convStep inv.divine 10000 T).2).2
          (by omega) with h3 | h3
      · rw [convStep_of_nonpos _ _ _ h3]
        rw [convStep_of_nonpos _ _ _ h3]
        exact h3
      · rcases convStep_snd_le inv.mid 10
            (convStep inv.high 100
              (convStep inv.peak 1000 (convStep inv.divine 10000 T).2).2).2
            (by omega) with h4 | h4
        · rw [convStep_of_nonpos _ _ _ h4]
          exact h4
        · rcases convStep_snd_le inv.low 1
              (convStep inv.mid 10
                (convStep inv.high 100
                  (convStep inv.peak 1000
                    (convStep inv.divine 10000 T).2).2).2).2
              (by omega) with h5 | h5
          · exact h5
          · linarith

/-- Conversion never drives any count negative. -/
lemma payWithConversion_nonneg (inv cost : StoneMap) (h : inv.Nonneg) :
    ((payWithConversion inv cost).1).Nonneg := by
  obtain ⟨h1, h2, h3, h4, h5⟩ := h
  refine ⟨?_, ?_, ?_, ?_, ?_⟩ <;>
    simp only [payWithConversion] <;>
    exact convStep_fst_nonneg _ _ _ (by assumption)

/-- `can_afford_cost = True` implies `pay_cost` succeeds. -/
lemma payCost_succeeds (inv cost : StoneMap)
    (h : canAffordCost inv cost = true) :
    (payCost inv cost).2 = true := by
  unfold payCost
  rw [h]
  simp only [Bool.true_eq_false, if_false]
  split_ifs with hex
  · rfl
  · have hconv : canAffordWithConversion inv cost = true := by
      unfold canAffordCost at h
      rw [if_neg (by simp [hex])] at h
      exact h
    exact payWithConversion_covers inv cost (by
      simpa [canAffordWithConversion] using hconv)

/-- If `pay_cost` fails it has not touched the inventory. -/
lemma payCost_fail_unchanged (inv cost : StoneMap)
    (h : (payCost inv cost).2 = false) :
    (payCost inv cost).1 = inv := by
  by_cases hca : canAffordCost inv cost = true
  · have := payCost_succeeds inv cost hca
    rw [this] at h
    exact absurd h (by simp)
  · unfold payCost
    rw [eq_false_of_ne_true hca]
    simp

/-- `pay_cost` preserves non-negativity of every count. -/
lemma payCost_nonneg (inv cost : StoneMap) (h : inv.Nonneg) :
    ((payCost inv cost).1).Nonneg := by
  unfold payCost
  split_ifs with h1 h2
  · exact h
  · obtain ⟨g1, g2, g3, g4, g5⟩ := h
    have := h2
    unfold exactSufficient at this
    simp only [Bool.and_eq_true, decide_eq_true_eq] at this
    obtain ⟨⟨⟨⟨e1, e2⟩, e3⟩, e4⟩, e5⟩ := this
    exact ⟨by simp [payExact]; omega, by simp [payExact]; omega,
           by simp [payExact]; omega, by simp [payExact]; omega,
           by simp [payExact]; omega⟩
  · exact payWithConversion_nonneg inv cost h

/-! ## Realm and stage system (src/realm_stage_system.py) -/

/-- The ten cultivation realms (`CultivationRealm`), in progression order. -/
inductive CultivationRealm where
  | bodyTempering | qiGathering | foundationBuilding | coreFormation
  | nascentSoul | soulTransformation | voidRefinement | bodyIntegration
  | mahayana | heavenlyImmortal
deriving DecidableEq, Repr, Fintype

/-- `RealmInfo` (name/description strings, display-only, omitted). -/
structure RealmInfo where
  stageExpBase : Int
  stageExpMultiplier : ℚ
  breakthroughDifficulty : ℚ
  lifespanYears : Int
  powerMultiplier : ℚ
  foundationRequirement : Int
deriving DecidableEq, Repr

/-- The static realm table built by `RealmStageManager._initialize_realms`
(Python float literals embedded as exact rationals). -/
def realms : CultivationRealm → RealmInfo
  | .bodyTempering => ⟨50, 1.2, 0.8, 100, 1.0, 20⟩
  | .qiGathering => ⟨80, 1.25, 1.0, 150, 2.0, 40⟩
  | .foundationBuilding => ⟨120, 1.3, 1.2, 300, 5.0, 80⟩
  | .coreFormation => ⟨200, 1.4, 1.5, 500, 12.0, 150⟩
  | .nascentSoul => ⟨350, 1.5, 2.0, 1000, 30.0, 250⟩
  | .soulTransformation => ⟨600, 1.6, 2.5, 2000, 75.0, 400⟩
  | .voidRefinement => ⟨1000, 1.7, 3.0, 5000, 180.0, 600⟩
  | .bodyIntegration => ⟨1800, 1.8, 4.0, 10000, 400.0, 900⟩
  | .mahayana => ⟨3000, 2.0, 5.0, 25000, 1000.0, 1400⟩
  | .heavenlyImmortal => ⟨5000, 2.2, 7.0, 100000, 2500.0, 2000⟩

/-- Python's `int(x)` conversion on a float: truncation toward zero.
All the values it is applied to in this development are non-negative, where
truncation agrees with the floor. -/
def pyInt (q : ℚ) : Int :=
  if 0 ≤ q then ⌊q⌋ else ⌈q⌉

/-- `RealmStageManager.get_stage_exp_requirement`:
`int(base_exp * multiplier ** (stage - 1))` for stage in [1, 9], else 0. -/
def getStageExpRequirement (realm : CultivationRealm) (stage : Int) : Int :=
  if stage < 1 ∨ 9 < stage then 0
  else
    pyInt ((realms realm).stageExpBase *
      (realms realm).stageExpMultiplier ^ (stage - 1).toNat)

/-- `RealmStageManager.calculate_breakthrough_success_rate`.  The bonus
factors dict is embedded as the list of its values (the code only ever adds
each value once). -/
def calculateBreakthroughSuccessRate (realm : CultivationRealm)
    (foundationQuality : Int) (bonusFactors : List ℚ) : ℚ :=
  let info := realms realm
  let foundationRatio : ℚ := foundationQuality / info.foundationRequirement
  let baseRate := min 0.95 (0.3 + (foundationRatio - 1.0) * 0.4)
  let difficultyPenalty := (info.breakthroughDifficulty - 1.0) * 0.1
  let finalRate := max 0.05 (baseRate - difficultyPenalty)
  let finalRate := bonusFactors.foldl (fun acc b => acc + b) finalRate
  min 0.95 (max 0.05 finalRate)

/-- Modelled from the spec:
`rate = clamp(0.05, 0.95, 0.3 + (foundation/requirement - 1.0)*0.4 -
(difficulty-1.0)*0.1 + sum of bonus_factors)` — the single-clamp formula of
§4.1, for refinement comparison against the code's computation. -/
def specBreakthroughSuccessRate (realm : CultivationRealm)
    (foundationQuality : Int) (bonusFactors : List ℚ) : ℚ :=
  let info := realms realm
  min 0.95 (max 0.05
    (0.3 + ((foundationQuality : ℚ) / info.foundationRequirement - 1.0) * 0.4 -
      (info.breakthroughDifficulty - 1.0) * 0.1 +
      bonusFactors.foldl (fun acc b => acc + b) 0))

/-! ## Player experience and effects (src/player.py) -/

/-- The stage-advancement loop of `EnhancedPlayer.add_experience`:
while `stage < 9` and the current stage's requirement is met, consume it and
advance.  The fuel `(9 - stage).toNat` bounds the number of iterations (the
stage strictly increases each round and the loop exits at 9), so the
recursion is faithful to the `while` loop for every starting stage.
Returns (stage, experience, advanced-flag); foundation bonuses and message
strings also produced by the Python code do not feed back into this loop
and are omitted. -/
def addExperienceLoop (realm : CultivationRealm) :
    Nat → Int → Int → Int × Int × Bool
  | 0, stage, exp => (stage, exp, false)
  | fuel + 1, stage, exp =>
    if stage < 9 then
      let req := getStageExpRequirement realm stage
      if req ≤ exp then
        let r := addExperienceLoop realm fuel (stage + 1) (exp - req)
        (r.1, r.2.1, true)
      else (stage, exp, false)
    else (stage, exp, false)

/-- `EnhancedPlayer.add_experience`: add the amount, then run the
advancement loop. -/
def addExperience (realm : CultivationRealm) (stage exp amount : Int) :
    Int × Int × Bool :=
  addExperienceLoop realm (9 - stage).toNat stage (exp + amount)

/-- Effect polarity: the Python code compares `effect['type']` against the
strings `'positive'` and `'negative'`; any other value is inert. -/
inductive EffectType where
  | positive | negative | other
deriving DecidableEq, Repr

/-- An ongoing effect dict.  Optional fields model key presence
(`'exp_multiplier' in effect` etc.); `remainingDuration = none` is the
permanent sentinel (`None`). -/
structure OngoingEffect where
  name : String
  etype : EffectType
  expMultiplier : Option ℚ := none
  expBonus : Option Int := none
  expPenalty : Option Int := none
  remainingDuration : Option Int := none
deriving DecidableEq, Repr

/-- One effect's action on the running experience value, from the body of
the `for` loop in `EnhancedPlayer._apply_ongoing_effects`. -/
def applyEffectStep (modified : Int) (e : OngoingEffect) : Int :=
  match e.etype with
  | .positive =>
    match e.expMultiplier with
    | some m => pyInt ((modified : ℚ) * m)
    | none =>
      match e.expBonus with
      | some b => modified + b
      | none => modified
  | .negative =>
    match e.expMultiplier with
    | some m => pyInt ((modified : ℚ) * m)
    | none =>
      match e.expPenalty with
      | some p => max 1 (modified - p)
      | none => modified
  | .other => modified

/-- `EnhancedPlayer._apply_ongoing_effects`: fold the effect list over the
base experience. -/
def applyOngoingEffects (baseExp : Int) (effects : List OngoingEffect) : Int :=
  effects.foldl applyEffectStep baseExp

/-- `EnhancedPlayer._cleanup_expired_effects`: rebuild the active list,
keeping permanent effects untouched, decrementing positive finite durations
(and keeping the effect), and dropping the rest. -/
def cleanupExpiredEffects : List OngoingEffect → List OngoingEffect
  | [] => []
  | e :: rest =>
    match e.remainingDuration with
    | none => e :: cleanupExpiredEffects rest
    | some r =>
      if 0 < r then
        { e with remainingDuration := some (r - 1) } :: cleanupExpiredEffects rest
      else cleanupExpiredEffects rest

/-- Modelled from the amended reading of the tick contract: a single
effect's fate under one duration tick (permanent kept untouched; positive
finite duration decremented and kept, including when it reaches zero;
non-positive finite duration dropped). -/
def tickEffect (e : OngoingEffect) : Option OngoingEffect :=
  match e.remainingDuration with
  | none => some e
  | some r =>
    if 0 < r then some { e with remainingDuration := some (r - 1) } else none

/-! ## Encounter chance (src/cultivation_encounters.py) -/

/-- The fields of `SmartEncounterManager` read by
`_calculate_encounter_chance` (its unused `current_session` parameter is
omitted). -/
structure EncounterChanceState where
  sessionsSinceEncounter : Int
  baseChance : ℚ
deriving DecidableEq, Repr

/-- `SmartEncounterManager._calculate_encounter_chance`: drought bonus of
`0.02` per session beyond 15 quiet sessions (active from 15 onward), capped
at `0.3`; the total is capped at `0.4`. -/
def calculateEncounterChance (m : EncounterChanceState) : ℚ :=
  let chance :=
    if 15 ≤ m.sessionsSinceEncounter then
      m.baseChance + min 0.3 (((m.sessionsSinceEncounter : ℚ) - 15) * 0.02)
    else m.baseChance
  min chance 0.4

/-! ## Effect curing (src/spirit_stones.py `EffectResolutionSystem` and
src/player.py `EnhancedPlayer.cure_effect`) -/

/-- The static `cure_costs` catalog (grades beyond those listed cost 0). -/
def cureCosts (effectName : String) : Option StoneMap :=
  if effectName = "Qi Stagnation" then some ⟨15, 2, 0, 0, 0⟩
  else if effectName = "Meridian Blockage" then some ⟨25, 3, 0, 0, 0⟩
  else if effectName = "Foundation Cracks" then some ⟨0, 5, 1, 0, 0⟩
  else if effectName = "Cultivation Deviation" then some ⟨0, 8, 2, 0, 0⟩
  else if effectName = "Heart Demon" then some ⟨0, 0, 3, 1, 0⟩
  else if effectName = "Chaotic Qi" then some ⟨20, 2, 0, 0, 0⟩
  else if effectName = "Elemental Imbalance" then some ⟨0, 4, 1, 0, 0⟩
  else if effectName = "Spiritual Corruption" then some ⟨0, 0, 2, 1, 0⟩
  else if effectName = "Dao Confusion" then some ⟨0, 0, 4, 2, 0⟩
  else if effectName = "Void Taint" then some ⟨0, 0, 0, 2, 1⟩
  else if effectName = "Technique Backlash" then some ⟨10, 1, 0, 0, 0⟩
  else if effectName = "Elemental Rejection" then some ⟨0, 3, 1, 0, 0⟩
  else if effectName = "Cultivation Instability" then some ⟨0, 6, 2, 0, 0⟩
  else none

/-- `EffectResolutionSystem.can_cure_effect`: a cure must exist in the
catalog and be affordable. -/
def canCureEffect (inv : StoneMap) (effectName : String) : Bool :=
  match cureCosts effectName with
  | none => false
  | some c => canAffordCost inv c

/-- `EffectResolutionSystem.cure_effect`: look up the cost and pay it;
returns the (possibly updated) inventory and the success flag. -/
def resolutionCureEffect (inv : StoneMap) (effectName : String) :
    StoneMap × Bool :=
  match cureCosts effectName with
  | none => (inv, false)
  | some c => payCost inv c

/-- The player state read and written by `EnhancedPlayer.cure_effect`. -/
structure PlayerEffectState where
  ongoingEffects : List OngoingEffect
  inventory : StoneMap
  effectsCured : Int
deriving DecidableEq, Repr

/-- The index-search loop at the top of `EnhancedPlayer.cure_effect`: first
index whose effect has the given name and negative type. -/
def findNegativeEffectIdx : List OngoingEffect → String → Option Nat
  | [], _ => none
  | e :: rest, nm =>
    if e.name = nm ∧ e.etype = .negative then some 0
    else (findNegativeEffectIdx rest nm).map (· + 1)

/-- `EnhancedPlayer.cure_effect`: fail (unchanged) when the effect is
missing/not negative, uncurable, or unaffordable; otherwise pay, remove the
found effect (`pop(effect_index)` = `eraseIdx`), and bump the cured count.
The human-readable message strings are display-only and omitted. -/
def playerCureEffect (st : PlayerEffectState) (effectName : String) :
    PlayerEffectState × Bool :=
  match findNegativeEffectIdx st.ongoingEffects effectName with
  | none => (st, false)
  | some idx =>
    if canCureEffect st.inventory effectName = false then (st, false)
    else if (resolutionCureEffect st.inventory effectName).2 then
      ({ ongoingEffects := st.ongoingEffects.eraseIdx idx,
         inventory := (resolutionCureEffect st.inventory effectName).1,
         effectsCured := st.effectsCured + 1 }, true)
    else ({ st with inventory := (resolutionCureEffect st.inventory effectName).1 },
          false)

/-- The 'Qi Deviation' effect appended by a failed breakthrough in
`EnhancedPlayer.attempt_realm_breakthrough` (`exp_multiplier 0.7`, duration
equal to the rolled recovery time; 5 is a value in the rolled range 3–7). -/
def qiDeviationEffect : OngoingEffect :=
  ⟨"Qi Deviation", .negative, some 0.7, none, none, some 5⟩

/-! ### Helper lemmas for concrete evaluation (Rat arithmetic is not
kernel-reducible, so concrete rational facts are proved with norm_num) -/

lemma addExperienceLoop_one (realm : CultivationRealm) (stage exp : Int) :
    addExperienceLoop realm 1 stage exp =
      if stage < 9 then
        (if getStageExpRequirement realm stage ≤ exp then
          (stage + 1, exp - getStageExpRequirement realm stage, true)
        else (stage, exp, false))
      else (stage, exp, false) := rfl

/-- Starting from stage 8, the advancement loop consumes exactly the
current stage's requirement `requirement(realm, 8)` and stops at stage 9. -/
lemma addExperience_from_stage8 (realm : CultivationRealm) (amount : Int)
    (h : getStageExpRequirement realm 8 ≤ amount) :
    addExperience realm 8 0 amount =
      (9, amount - getStageExpRequirement realm 8, true) := by
  rw [addExperience, show ((9 : Int) - 8).toNat = 1 from rfl,
    addExperienceLoop_one]
  rw [if_pos (by norm_num : (8 : Int) < 9)]
  rw [if_pos (by omega : getStageExpRequirement realm 8 ≤ 0 + amount)]
  norm_num

lemma stageExpRequirement_bt8 :
    getStageExpRequirement .bodyTempering 8 = 179 := by
  simp only [getStageExpRequirement, realms, pyInt,
    show ((8 : Int) - 1).toNat = 7 from rfl]
  norm_num [Int.floor_eq_iff]

lemma stageExpRequirement_bt9 :
    getStageExpRequirement .bodyTempering 9 = 214 := by
  simp only [getStageExpRequirement, realms, pyInt,
    show ((9 : Int) - 1).toNat = 8 from rfl]
  norm_num [Int.floor_eq_iff]

/-- Every realm's table entry has base experience at least 50 and growth
multiplier at least 6/5 (read off `_initialize_realms`). -/
lemma realms_mult_bounds (realm : CultivationRealm) :
    (50 : ℚ) ≤ ((realms realm).stageExpBase : ℚ) ∧
    (6/5 : ℚ) ≤ (realms realm).stageExpMultiplier := by
  cases realm <;> constructor <;> norm_num [realms]

lemma calcRate_hi :
    calculateBreakthroughSuccessRate .heavenlyImmortal 20000 [] = 7/20 := by
  simp only [calculateBreakthroughSuccessRate, realms, List.foldl_nil]
  norm_num [min_def, max_def]

lemma specRate_hi :
    specBreakthroughSuccessRate .heavenlyImmortal 20000 [] = 19/20 := by
  simp only [specBreakthroughSuccessRate, realms, List.foldl_nil]
  norm_num [min_def, max_def]

/-! ## Claim theorems -/

/-- C1 (counterexample): paying `{Mid: 5}` from `{Low: 0, Mid: 2, High: 1}`
succeeds via conversion, but the resulting ledger value is 20, not at least
`old_total − 50 = 70`: the greedy conversion consumes a whole High-grade
stone (value 100) against the remaining cost of 50 and gives no change. -/
theorem payConversion_overshoot_counterexample :
    (payCost ⟨0, 2, 1, 0, 0⟩ ⟨0, 5, 0, 0, 0⟩).2 = true ∧
    getTotalValueInLowGrade (payCost ⟨0, 2, 1, 0, 0⟩ ⟨0, 5, 0, 0, 0⟩).1 = 20 ∧
    ¬(getTotalValueInLowGrade ⟨0, 2, 1, 0, 0⟩ - 50 ≤
        getTotalValueInLowGrade (payCost ⟨0, 2, 1, 0, 0⟩ ⟨0, 5, 0, 0, 0⟩).1) := by
  decide

/-- C1 (amended): the payment of `{Mid: 5}` from `{Low: 0, Mid: 2, High: 1}`
succeeds via conversion even though Mid alone is insufficient, and the
resulting ledger value is exactly 20, which lies between 0 and the old
total 120 (payment never creates currency), but the deduction may exceed
the cost by up to a whole consumed stone since conversion gives no change. -/
theorem payConversion_overshoot_amended :
    (payCost ⟨0, 2, 1, 0, 0⟩ ⟨0, 5, 0, 0, 0⟩).2 = true ∧
    getTotalValueInLowGrade (payCost ⟨0, 2, 1, 0, 0⟩ ⟨0, 5, 0, 0, 0⟩).1 = 20 ∧
    0 ≤ getTotalValueInLowGrade (payCost ⟨0, 2, 1, 0, 0⟩ ⟨0, 5, 0, 0, 0⟩).1 ∧
    getTotalValueInLowGrade (payCost ⟨0, 2, 1, 0, 0⟩ ⟨0, 5, 0, 0, 0⟩).1 ≤
      getTotalValueInLowGrade ⟨0, 2, 1, 0, 0⟩ := by
  decide

/-- C2: on a ledger with non-negative counts (the documented invariant),
`can_afford_cost = True` implies `pay_cost` succeeds, and the resulting
inventory has every denomination count non-negative. -/
theorem payCost_safe_after_affordability (inv cost : StoneMap)
    (hinv : inv.Nonneg) (h : canAffordCost inv cost = true) :
    (payCost inv cost).2 = true ∧ ((payCost inv cost).1).Nonneg :=
  ⟨payCost_succeeds inv cost h, payCost_nonneg inv cost hinv⟩

/-- C2 witness: the starting inventory affords the Qi Stagnation cure cost. -/
theorem payCost_safe_after_affordability_witness :
    (payCost initialInventory ⟨15, 2, 0, 0, 0⟩).2 = true ∧
    ((payCost initialInventory ⟨15, 2, 0, 0, 0⟩).1).Nonneg :=
  payCost_safe_after_affordability initialInventory ⟨15, 2, 0, 0, 0⟩
    (by decide) (by decide)

/-- C3 (counterexample): at Body Tempering stage 8 with zero experience,
receiving exactly `requirement(T, 9) = 214` advances to stage 9 but leaves
`214 − requirement(T, 8) = 214 − 179 = 35` experience, not zero: the loop
consumes the CURRENT stage's requirement, `requirement(T, 8)`. -/
theorem addExperience_stage8_requirement9_counterexample :
    addExperience .bodyTempering 8 0
      (getStageExpRequirement .bodyTempering 9) = (9, 35, true) ∧
    ¬((35 : Int) = 0) := by
  refine ⟨?_, by norm_num⟩
  rw [stageExpRequirement_bt9,
    addExperience_from_stage8 _ _ (by rw [stageExpRequirement_bt8]; norm_num),
    stageExpRequirement_bt8]
  norm_num

/-- C3 (amended): for every realm, a player at stage 8 with zero
accumulated experience who receives exactly `requirement(T, 8)` (the
current stage's requirement, which is what the advancement loop consumes)
ends at stage 9 with zero leftover, having advanced. -/
theorem addExperience_stage8_exact_requirement :
    ∀ realm : CultivationRealm,
      addExperience realm 8 0 (getStageExpRequirement realm 8) =
        (9, 0, true) := by
  intro realm
  rw [addExperience_from_stage8 realm _ le_rfl]
  norm_num

/-- C4 (code bug): with base experience 3 (positive, and in the range the
game actually rolls) and three stacked 'Qi Deviation' effects — exactly
what three failed breakthroughs leave behind — the multiplicative modifiers
round the session experience down to 0, below the floor of 1 the spec
requires: `int(3·0.7) = 2`, `int(2·0.7) = 1`, `int(1·0.7) = 0`; the code's
`max(1, …)` floor only guards the `exp_penalty` branch. -/
theorem applyOngoingEffects_multiplier_floor_violation :
    0 < (3 : Int) ∧
    applyOngoingEffects 3 [qiDeviationEffect, qiDeviationEffect, qiDeviationEffect] = 0 ∧
    ¬(1 ≤ applyOngoingEffects 3
        [qiDeviationEffect, qiDeviationEffect, qiDeviationEffect]) := by
  have hs3 : applyEffectStep 3 qiDeviationEffect = 2 := by
    simp only [applyEffectStep, qiDeviationEffect, pyInt]
    norm_num [Int.floor_eq_iff]
  have hs2 : applyEffectStep 2 qiDeviationEffect = 1 := by
    simp only [applyEffectStep, qiDeviationEffect, pyInt]
    norm_num [Int.floor_eq_iff]
  have hs1 : applyEffectStep 1 qiDeviationEffect = 0 := by
    simp only [applyEffectStep, qiDeviationEffect, pyInt]
    norm_num [Int.floor_eq_iff]
  have hfold : applyOngoingEffects 3
      [qiDeviationEffect, qiDeviationEffect, qiDeviationEffect] = 0 := by
    simp only [applyOngoingEffects, List.foldl_cons, List.foldl_nil,
      hs3, hs2, hs1]
  exact ⟨by norm_num, hfold, by rw [hfold]; norm_num⟩

/-- C5 (counterexample): at Heavenly Immortal with foundation 20000 and no
bonus factors, the code clamps the foundation term at 0.95 BEFORE applying
the difficulty penalty and returns 0.35, while the spec's single-clamp
formula gives 0.95. -/
theorem breakthroughRate_formula_counterexample :
    calculateBreakthroughSuccessRate .heavenlyImmortal 20000 [] = 7/20 ∧
    specBreakthroughSuccessRate .heavenlyImmortal 20000 [] = 19/20 ∧
    calculateBreakthroughSuccessRate .heavenlyImmortal 20000 [] ≠
      specBreakthroughSuccessRate .heavenlyImmortal 20000 [] := by
  refine ⟨calcRate_hi, specRate_hi, ?_⟩
  rw [calcRate_hi, specRate_hi]
  norm_num

/-- C5 (amended): the returned breakthrough success rate always lies in
[0.05, 0.95], for every realm, every foundation quality and every list of
bonus factors (including extreme ones); the code applies intermediate
clamps, so it does not equal the spec's single-clamp formula in general. -/
theorem breakthroughRate_clamped :
    ∀ (realm : CultivationRealm) (fq : Int) (bonusFactors : List ℚ),
      0.05 ≤ calculateBreakthroughSuccessRate realm fq bonusFactors ∧
      calculateBreakthroughSuccessRate realm fq bonusFactors ≤ 0.95 := by
  intro realm fq bonusFactors
  have h : ∀ x : ℚ, 0.05 ≤ min 0.95 (max 0.05 x) ∧
      min 0.95 (max 0.05 x) ≤ 0.95 := by
    intro x
    exact ⟨le_min (by norm_num) (le_max_left _ _), min_le_left _ _⟩
  exact h _

/-- C6 (counterexample): ticking a single effect with remaining duration 1
decrements it to 0 but KEEPS it in the active list — an effect with a
finite duration of zero remains active after the tick (it is only dropped
on the next tick). -/
theorem cleanupExpiredEffects_zero_retained_counterexample :
    cleanupExpiredEffects
        [⟨"Qi Deviation", .negative, some 0.7, none, none, some 1⟩] =
      [⟨"Qi Deviation", .negative, some 0.7, none, none, some 0⟩] ∧
    ¬(∀ e ∈ cleanupExpiredEffects
        [(⟨"Qi Deviation", .negative, some 0.7, none, none, some 1⟩ :
          OngoingEffect)],
        e.remainingDuration ≠ some 0) := by
  refine ⟨rfl, fun hall => ?_⟩
  exact hall ⟨"Qi Deviation", .negative, some 0.7, none, none, some 0⟩
    (by exact List.mem_singleton.mpr rfl) rfl

/-- C6 (amended): one duration tick maps each effect independently:
permanent effects (duration `None`) are kept untouched; an effect with a
positive finite duration is kept with the duration decremented by one, even
when it thereby reaches zero; an effect whose finite duration is already
non-positive is removed (so an effect expiring this tick remains visible at
duration 0 until the next tick removes it). -/
theorem cleanupExpiredEffects_filterMap :
    ∀ l : List OngoingEffect,
      cleanupExpiredEffects l = l.filterMap tickEffect := by
  intro l
  induction l with
  | nil => rfl
  | cons e rest ih =>
    cases hd : e.remainingDuration with
    | none =>
      simp [cleanupExpiredEffects, tickEffect, List.filterMap_cons, hd, ih]
    | some r =>
      by_cases hr : 0 < r
      · simp [cleanupExpiredEffects, tickEffect, List.filterMap_cons, hd, hr, ih]
      · simp [cleanupExpiredEffects, tickEffect, List.filterMap_cons, hd, hr, ih]

/-- C7: within every realm, the stage experience requirement is strictly
increasing from each stage s in [1, 8] to stage s + 1 (the floor in the
requirement formula never collapses two consecutive stages, since every
realm's growth multiplier exceeds 1). -/
theorem stageExpRequirement_strictMono (realm : CultivationRealm) (s : Int)
    (h1 : 1 ≤ s) (h2 : s ≤ 8) :
    getStageExpRequirement realm s < getStageExpRequirement realm (s + 1) := by
  obtain ⟨hb, hm⟩ := realms_mult_bounds realm
  have hm1 : (1 : ℚ) ≤ (realms realm).stageExpMultiplier := by linarith
  have hcond1 : ¬(s < 1 ∨ 9 < s) := by omega
  have hcond2 : ¬(s + 1 < 1 ∨ 9 < s + 1) := by omega
  unfold getStageExpRequirement
  rw [if_neg hcond1, if_neg hcond2]
  have hk : (s + 1 - 1).toNat = (s - 1).toNat + 1 := by omega
  rw [hk]
  set m : ℚ := (realms realm).stageExpMultiplier with hmdef
  set k := (s - 1).toNat with hkdef
  set x : ℚ := ((realms realm).stageExpBase : ℚ) * m ^ k with hx
  have hmk : (1 : ℚ) ≤ m ^ k := one_le_pow₀ hm1
  have hxge : (50 : ℚ) ≤ x := by
    calc (50 : ℚ) = 50 * 1 := by ring
      _ ≤ ((realms realm).stageExpBase : ℚ) * m ^ k :=
          mul_le_mul hb hmk (by norm_num) (by linarith)
  have hx0 : (0 : ℚ) ≤ x := by linarith
  have hstep : x + 10 ≤ x * m := by
    have hfac : (1/5 : ℚ) ≤ m - 1 := by linarith
    have hmul : x * (1/5) ≤ x * (m - 1) :=
      mul_le_mul_of_nonneg_left hfac hx0
    nlinarith
  have hxm0 : (0 : ℚ) ≤ x * m := by nlinarith
  have e1 : ((realms realm).stageExpBase : ℚ) * m ^ (k + 1) = x * m := by
    rw [hx]; ring
  rw [e1]
  rw [pyInt, pyInt, if_pos hx0, if_pos hxm0]
  have hfl : ⌊x⌋ + 10 ≤ ⌊x * m⌋ := by
    have h10 : x + ((10 : ℤ) : ℚ) ≤ x * m := by push_cast; linarith
    calc ⌊x⌋ + 10 = ⌊x + ((10 : ℤ) : ℚ)⌋ := (Int.floor_add_int x 10).symm
      _ ≤ ⌊x * m⌋ := Int.floor_le_floor h10
  omega

/-- C7 witness: concrete instance at Body Tempering, stage 1 to 2. -/
theorem stageExpRequirement_strictMono_witness :
    getStageExpRequirement CultivationRealm.bodyTempering 1 <
      getStageExpRequirement CultivationRealm.bodyTempering 2 :=
  stageExpRequirement_strictMono CultivationRealm.bodyTempering 1
    (by decide) (by decide)

/-- C8: with 20 quiet sessions and base rate 0.06 the encounter probability
is `min(0.06 + min(0.3, (20−15)·0.02), 0.4) = 0.16`; below 15 quiet
sessions (and at exactly 15) no drought bonus applies; the bonus caps at
0.3 (0.36 total at 100 quiet sessions with base 0.06) and the total
probability caps at 0.4 (reached with base 0.2). -/
theorem encounterChance_drought_scenario :
    calculateEncounterChance ⟨20, 0.06⟩ = 4/25 ∧
    (4 : ℚ)/25 = min (0.06 + min 0.3 (((20 : ℚ) - 15) * 0.02)) 0.4 ∧
    calculateEncounterChance ⟨14, 0.06⟩ = 0.06 ∧
    calculateEncounterChance ⟨15, 0.06⟩ = 0.06 ∧
    calculateEncounterChance ⟨100, 0.06⟩ = 0.06 + 0.3 ∧
    calculateEncounterChance ⟨100, 0.2⟩ = 0.4 := by
  refine ⟨?_, ?_, ?_, ?_, ?_, ?_⟩ <;>
    norm_num [calculateEncounterChance, min_def]

/-- C9 (counterexample): `add_stones` with a negative amount is neither
rejected nor ignored: depositing −5 Low-grade stones onto the starting
inventory changes it and strictly decreases the Low count from 50 to 45. -/
theorem addStones_negative_counterexample :
    (addStones initialInventory .low (-5)).low = 45 ∧
    addStones initialInventory .low (-5) ≠ initialInventory ∧
    (addStones initialInventory .low (-5)).low < initialInventory.low := by
  decide

/-- C9 (amended): `add_stones` adds the signed amount unconditionally (no
non-negativity check exists), so a negative amount strictly decreases that
denomination's count. -/
theorem addStones_unconditional_add (inv : StoneMap) (g : SpiritStoneGrade)
    (a : Int) (h : a < 0) :
    (addStones inv g a).get g = inv.get g + a ∧
    (addStones inv g a).get g < inv.get g := by
  refine ⟨?_, ?_⟩ <;> cases g <;> simp [addStones, StoneMap.get] <;> omega

/-- C9 witness: concrete instance with amount −5 on the Low grade. -/
theorem addStones_unconditional_add_witness :
    (addStones initialInventory SpiritStoneGrade.low (-5)).get
        SpiritStoneGrade.low =
      initialInventory.get SpiritStoneGrade.low + (-5) ∧
    (addStones initialInventory SpiritStoneGrade.low (-5)).get
        SpiritStoneGrade.low <
      initialInventory.get SpiritStoneGrade.low :=
  addStones_unconditional_add initialInventory SpiritStoneGrade.low (-5)
    (by decide)

/-- C10: whenever `EnhancedPlayer.cure_effect` returns failure — the effect
is missing or not negative, has no cure-catalog entry, or is unaffordable —
the whole player state (ongoing effects, spirit-stone inventory and
lifetime cured count) is left unchanged: curing is atomic, with no partial
payment or partial removal on any error path. -/
theorem playerCureEffect_failure_atomic (st : PlayerEffectState)
    (effectName : String)
    (h : (playerCureEffect st effectName).2 = false) :
    (playerCureEffect st effectName).1 = st := by
  unfold playerCureEffect at h ⊢
  cases hf : findNegativeEffectIdx st.ongoingEffects effectName with
  | none => rfl
  | some idx =>
    rw [hf] at h
    dsimp only at h ⊢
    by_cases hc : canCureEffect st.inventory effectName = false
    · rw [if_pos hc]
    · exfalso
      rw [if_neg hc] at h
      have hcost : ∃ c, cureCosts effectName = some c ∧
          canAffordCost st.inventory c = true := by
        unfold canCureEffect at hc
        cases hcc : cureCosts effectName with
        | none => rw [hcc] at hc; exact absurd rfl hc
        | some c =>
          rw [hcc] at hc
          refine ⟨c, rfl, ?_⟩
          cases hb : canAffordCost st.inventory c with
          | false => exact absurd hb hc
          | true => rfl
      obtain ⟨c, hcc, hca⟩ := hcost
      have hsucc : (resolutionCureEffect st.inventory effectName).2 = true := by
        unfold resolutionCureEffect
        rw [hcc]
        exact payCost_succeeds _ _ hca
      rw [if_pos hsucc] at h
      exact absurd h (by simp)

/-- C10 witness: curing on a player with no active effects fails and leaves
the state unchanged. -/
theorem playerCureEffect_failure_atomic_witness :
    (playerCureEffect ⟨[], initialInventory, 0⟩ "Qi Stagnation").1 =
      (⟨[], initialInventory, 0⟩ : PlayerEffectState) :=
  playerCureEffect_failure_atomic ⟨[], initialInventory, 0⟩ "Qi Stagnation"
    (by decide)

end CultivationGame
